import Mathlib

/-!
Verification of the line-oriented stream access library (module `tailer`).

The development shallowly embeds the Python source `src/tailer/__init__.py`:
byte strings become `List Nat` (byte values), the seekable stream becomes an
explicit `ByteStream` record (data plus cursor), and each method of `Tailer`
becomes a pure Lean function threading the stream state.  Fallible operations
(a seek to a negative offset, indexing an empty byte string, calling a method
that does not exist on the object) return `Except PyErr`.  Loops whose Python
termination argument is "a counter strictly grows towards a bound" are given
an explicit fuel argument that provably dominates the loop count; exhaustion
maps to the distinguished error `PyErr.loopFuel`, which is unreachable for
the fuel values used at call sites.
-/

/-- Runtime errors of the embedded Python code. -/
inductive PyErr where
  /-- `ValueError`/`OSError` raised by `stream.seek` on a negative target. -/
  | negativeSeek : PyErr
  /-- `IndexError` raised by `data[0]` (or `data[-1]`) on an empty byte string. -/
  | indexError : PyErr
  /-- `AttributeError`: the attribute looked up on the object does not exist. -/
  | attributeError : PyErr
  /-- Fuel exhaustion of the embedding (unreachable at the fuel used). -/
  | loopFuel : PyErr
deriving DecidableEq, Repr

/-- Decidable equality of `Except` results, used to evaluate the embedding
on concrete inputs. -/
instance exceptDecEq {ε α : Type} [DecidableEq ε] [DecidableEq α] :
    DecidableEq (Except ε α) := fun x y =>
  match x, y with
  | .error a, .error b =>
    if h : a = b then .isTrue (by rw [h]) else .isFalse (by intro hh; injection hh; exact h (by assumption))
  | .error _, .ok _ => .isFalse (by intro hh; injection hh)
  | .ok _, .error _ => .isFalse (by intro hh; injection hh)
  | .ok a, .ok b =>
    if h : a = b then .isTrue (by rw [h]) else .isFalse (by intro hh; injection hh; exact h (by assumption))

/-- A seekable binary stream: the full byte contents and the cursor.
Models the `io` stream object wrapped by `Tailer`; `os.fstat(...).st_size`
is `data.length`. -/
structure ByteStream where
  data : List Nat
  pos : Nat
deriving DecidableEq, Repr

/-- `Tailer.read(n)` for `n ≥ 0`: read up to `n` bytes from the cursor,
returning the data read (its length is the `data_len` of the source) and
the advanced stream. -/
def sread (st : ByteStream) (n : Nat) : List Nat × ByteStream :=
  let chunk := (st.data.drop st.pos).take n
  (chunk, { st with pos := st.pos + chunk.length })

/-- `stream.read()` with no size: read everything from the cursor on. -/
def sreadAll (st : ByteStream) : List Nat × ByteStream :=
  let chunk := st.data.drop st.pos
  (chunk, { st with pos := st.pos + chunk.length })

/-- `stream.seek(target, SEEK_SET)` where the target may have been computed
by subtractions: Python raises on a negative target. -/
def seekTo (st : ByteStream) (target : Int) : Except PyErr ByteStream :=
  if target < 0 then .error .negativeSeek else .ok { st with pos := target.toNat }

/-- `Tailer._terminators = (b"\r\n", b"\n", b"\r")`, in match priority order. -/
def pyTerminators : List (List Nat) := [[13, 10], [10], [13]]

/-- `Tailer.prefix(data)` (named `prefix` in the source): the first terminator,
in priority order, that `data` starts with. -/
def termStartsWith (data : List Nat) : Option (List Nat) :=
  pyTerminators.find? (fun t => t.isPrefixOf data)

/-- `Tailer.suffix(data)` (named `suffix` in the source): the first terminator,
in priority order, that `data` ends with. -/
def termEndsWith (data : List Nat) : Option (List Nat) :=
  pyTerminators.find? (fun t => t.isSuffixOf data)

/-- Worker for `Tailer.splitlines`: `re.split(b"\r\n|\n|\r", data)` scans left
to right and, at each position, prefers the alternative `\r\n` over `\n`
over `\r`.  `acc` holds the bytes of the current field in reverse. -/
def splitlinesGo : List Nat → List Nat → List (List Nat)
  | [], acc => [acc.reverse]
  | 13 :: 10 :: rest, acc => acc.reverse :: splitlinesGo rest []
  | 13 :: rest, acc => acc.reverse :: splitlinesGo rest []
  | 10 :: rest, acc => acc.reverse :: splitlinesGo rest []
  | b :: rest, acc => splitlinesGo rest (b :: acc)

/-- `Tailer.splitlines(data)`. -/
def pySplitlines (data : List Nat) : List (List Nat) :=
  splitlinesGo data []

/-- `stream.readline()` on a binary stream: bytes up to and including the
first `\n` (byte 10), or all remaining bytes when none occurs. -/
def readlineBytes : List Nat → List Nat
  | [] => []
  | b :: rest => if b = 10 then [10] else b :: readlineBytes rest

/-- `stream.readline()` applied to a `ByteStream`. -/
def readline (st : ByteStream) : List Nat × ByteStream :=
  let line := readlineBytes (st.data.drop st.pos)
  (line, { st with pos := st.pos + line.length })

/-- Fuelled base-2 logarithm, kernel-reducible.  `log2Fuel fuel n = Nat.log2 n`
whenever `n ≤ fuel`, since each recursion step halves `n`. -/
def log2Fuel : Nat → Nat → Nat
  | 0, _ => 0
  | fuel + 1, n => if 2 ≤ n then log2Fuel fuel (n / 2) + 1 else 0

/-- Number of 30-bit digits CPython uses to store the magnitude `n`
(64-bit build): `0` for `n = 0`, otherwise `⌈bitlen n / 30⌉`. -/
def pyIntDigits (n : Nat) : Nat :=
  if n = 0 then 0 else log2Fuel n n / 30 + 1

/-- Models `sys.getsizeof` on a CPython 64-bit `int`: 24 header bytes plus
4 bytes per 30-bit digit of the magnitude.  (`power_of_2` only consumes this
value as a loop bound near 28–36, so the exact header constant is
immaterial to every result proved about it.) -/
def sys_getsizeof (x : Int) : Nat :=
  24 + 4 * pyIntDigits x.natAbs

/-- Python arithmetic right shift `x >> n` on `int` (floor semantics). -/
def pyShr (x : Int) (n : Nat) : Int :=
  match x with
  | Int.ofNat m => Int.ofNat (m >>> n)
  | Int.negSucc m => Int.negSucc (m >>> n)

/-- Python bitwise or `x | y` on `int` (two-complement semantics). -/
def pyOr (x y : Int) : Int :=
  match x, y with
  | Int.ofNat m, Int.ofNat n => Int.ofNat (m ||| n)
  | Int.ofNat m, Int.negSucc n => Int.negSucc (Nat.ldiff n m)
  | Int.negSucc m, Int.ofNat n => Int.negSucc (Nat.ldiff m n)
  | Int.negSucc m, Int.negSucc n => Int.negSucc (m &&& n)

/-- The `while mod < size: x |= x >> mod; mod *= 2` loop of `power_of_2`.
The fuel dominates the iteration count because `mod` doubles from `1`
up to `size` and `2 ^ j ≥ j + 1`, so `fuel = size` always suffices. -/
def orShiftLoop : Nat → Int → Nat → Nat → Int
  | 0, x, _, _ => x
  | fuel + 1, x, mod, size =>
    if mod < size then orShiftLoop fuel (pyOr x (pyShr x mod)) (mod * 2) size else x

/-- `power_of_2(x)` from the source: decrement, smear bits right with the
doubling-shift loop bounded by `sys.getsizeof(x)`, then add one. -/
def power_of_2 (requested : Int) : Int :=
  let x := requested - 1
  orShiftLoop (sys_getsizeof x) x 1 (sys_getsizeof x) + 1

/-- Forward scan of one chunk in `Tailer.next`: the inner
`while data_where < data_len` loop.  Returns the first index at which a
terminator starts, together with that terminator. -/
def scanTerm : List Nat → Nat → Option (Nat × List Nat)
  | [], _ => none
  | b :: rest, i =>
    match termStartsWith (b :: rest) with
    | some t => some (i, t)
    | none => scanTerm rest (i + 1)

/-- The `while True` loop of `Tailer.next`.  `ws` is the `where` recorded at
entry, `off` the accumulated `offset`.  One fuel unit per iteration; every
iteration that does not return reads at least one byte past `ws + off`, so
`data.length + 1` units dominate the loop count. -/
def nextLoop (size ws : Nat) : ByteStream → Nat → Nat → Except PyErr (Int × ByteStream)
  | _, _, 0 => .error .loopFuel
  | st, off, fuel + 1 =>
    let r := sread st size
    let data := r.1
    let st1 := r.2
    if data.length = 0 then
      -- not data_len: break, then return -1 with the cursor untouched
      .ok (-1, st1)
    else
      -- if data[-1] == CR: peek one byte; fold a LF in, else rewind the peek
      let folded : List Nat × ByteStream :=
        if data.getLast? = some 13 then
          let terminatorWhere := st1.pos
          let r2 := sread st1 1
          match r2.1 with
          | 10 :: _ => (data ++ [10], r2.2)
          | _ => (data, { r2.2 with pos := terminatorWhere })
        else (data, st1)
      let data2 := folded.1
      let st2 := folded.2
      match scanTerm data2 0 with
      | some (dw, t) =>
        -- seek(where + offset + data_where + len(terminator)); return tell()
        let st3 := { st2 with pos := ws + off + dw + t.length }
        .ok (Int.ofNat st3.pos, st3)
      | none =>
        let off2 := off + data2.length
        nextLoop size ws { st2 with pos := ws + off2 } off2 fuel

/-- `Tailer.next()`: seek to the start of the next line, returning the new
offset, or `-1` when no further terminator exists. -/
def pyNext (size : Nat) (st : ByteStream) : Except PyErr (Int × ByteStream) :=
  nextLoop size st.pos st 0 (st.data.length + 1)

/-- Backward scan of one chunk in `Tailer.previous`: the inner
`while data_where > 0` loop.  Returns the seek target of the `elif` branch
(`where - offset - (data_len - data_where)`) or `none` when the loop falls
through.  `dl` is `data_len`, `dw` is `data_where`; fuel `dw + 1` dominates
the loop because `dw` strictly decreases (terminators are non-empty). -/
def prevScan (ws off dl : Nat) (data : List Nat) : Nat → Nat → Option Int
  | _, 0 => none
  | dw, fuel + 1 =>
    if dw = 0 then none
    else
      match termEndsWith (data.take dw) with
      | some t =>
        if off = 0 ∧ dw = dl then
          -- terminator closing the current line: strip it and keep scanning
          prevScan ws off dl data (dw - t.length) fuel
        else
          some ((ws : Int) - (off : Int) - ((dl : Int) - (dw : Int)))
      | none => prevScan ws off dl data (dw - 1) fuel

/-- The `while True` loop of `Tailer.previous`.  `ws` is the `where` recorded
at entry.  Each iteration that neither breaks nor returns adds
`data_len ≥ 1` to `off`, and the loop errors out once `off + read_size`
passes `ws`, so `ws + 1` fuel units dominate the loop count. -/
def prevLoop (size ws : Nat) : ByteStream → Nat → Nat → Except PyErr (Int × ByteStream)
  | _, _, 0 => .error .loopFuel
  | st, off, fuel + 1 =>
    if off = ws then
      -- break; then: at offset 0 nothing more to read, else the very first line
      if ws = 0 then .ok (-1, st)
      else
        match seekTo st 0 with
        | .error e => .error e
        | .ok st1 => .ok (0, st1)
    else
      -- read_size = self.size if self.size <= where else where  (note: `where`,
      -- not the bytes remaining before the cursor)
      let readSize := if size ≤ ws then size else ws
      match seekTo st ((ws : Int) - (off : Int) - (readSize : Int)) with
      | .error e => .error e
      | .ok st1 =>
        let r := sread st1 readSize
        let data := r.1
        let st2 := r.2
        match data with
        | [] => .error .indexError  -- data[0] on an empty read
        | d0 :: _ =>
          -- if data[0] == LF: maybe fold in a preceding CR
          let foldedE : Except PyErr (List Nat × Nat × ByteStream) :=
            if d0 = 10 then
              let terminatorWhere := st2.pos
              if terminatorWhere > data.length + 1 then
                match seekTo st2 ((ws : Int) - (off : Int) - (data.length : Int) - 1) with
                | .error e => .error e
                | .ok st3 =>
                  let r2 := sread st3 1
                  match r2.1 with
                  | [] => .error .indexError  -- terminator_data[0] on an empty read
                  | 13 :: _ =>
                    .ok (13 :: data, data.length + 1, { r2.2 with pos := terminatorWhere })
                  | _ :: _ => .ok (data, data.length, { r2.2 with pos := terminatorWhere })
              else .ok (data, data.length, st2)
            else .ok (data, data.length, st2)
          match foldedE with
          | .error e => .error e
          | .ok folded =>
            let data2 := folded.1
            let dl := folded.2.1
            let st4 := folded.2.2
            match prevScan ws off dl data2 dl (dl + 1) with
            | some target =>
              match seekTo st4 target with
              | .error e => .error e
              | .ok st5 => .ok (Int.ofNat st5.pos, st5)
            | none => prevLoop size ws st4 (off + dl) fuel

/-- `Tailer.previous()`: seek to the start of the previous line, returning the
new offset, or `-1` when the cursor is already at offset 0. -/
def pyPrevious (size : Nat) (st : ByteStream) : Except PyErr (Int × ByteStream) :=
  prevLoop size st.pos st 0 (st.pos + 1)

/-- The `while lines and self.previous() != -1` loop of `Tailer.tail`,
structural on the remaining line count. -/
def tailSeekLoop (size : Nat) : ByteStream → Nat → Except PyErr ByteStream
  | st, 0 => .ok st
  | st, lines + 1 => do
    let r ← pyPrevious size st
    if r.1 = -1 then .ok r.2 else tailSeekLoop size r.2 lines

/-- Strip a single trailing terminator: the
`for t in self._terminators: ... data = data[:-len(t)]; break` loop shared
by `Tailer.tail` and `Tailer.head`. -/
def stripOneTrailingTerm (data : List Nat) : List Nat :=
  match termEndsWith data with
  | some t => data.take (data.length - t.length)
  | none => data

/-- `Tailer.tail(lines)`: seek to end, walk back up to `lines` boundaries,
read the rest, strip one trailing terminator, split. -/
def pyTailerTail (size : Nat) (st : ByteStream) (lines : Nat) :
    Except PyErr (List (List Nat)) := do
  let st0 := { st with pos := st.data.length }
  let st1 ← tailSeekLoop size st0 lines
  let data := (sreadAll st1).1
  let data2 := stripOneTrailingTerm data
  .ok (if data2 = [] then [] else pySplitlines data2)

/-- The `while lines and self.next() != -1` loop of `Tailer.head`. -/
def headSeekLoop (size : Nat) : ByteStream → Nat → Except PyErr ByteStream
  | st, 0 => .ok st
  | st, lines + 1 => do
    let r ← pyNext size st
    if r.1 = -1 then .ok r.2 else headSeekLoop size r.2 lines

/-- `Tailer.head(lines)`: seek to start, walk forward up to `lines`
boundaries, read from the start to the reached cursor, strip one trailing
terminator, split. -/
def pyTailerHead (size : Nat) (st : ByteStream) (lines : Nat) :
    Except PyErr (List (List Nat)) := do
  let st0 := { st with pos := 0 }
  let st1 ← headSeekLoop size st0 lines
  let endPos := st1.pos
  let data := (sread { st1 with pos := 0 } endPos).1
  let data2 := stripOneTrailingTerm data
  .ok (if data2 = [] then [] else pySplitlines data2)

/-- Module-level `tail(file, lines, read_size)`: builds
`Tailer(file, read_size)` (whose size setter applies `power_of_2`) and runs
`tail`.  `toNat` is safe at the boundary: requested sizes of interest are
positive and `power_of_2` sends them to positive values. -/
def pyTailTop (data : List Nat) (lines : Nat) (readSize : Int) :
    Except PyErr (List (List Nat)) :=
  pyTailerTail (power_of_2 readSize).toNat ⟨data, 0⟩ lines

/-- Module-level `head(file, lines, read_size)` for an open stream. -/
def pyHeadTop (data : List Nat) (lines : Nat) (readSize : Int) :
    Except PyErr (List (List Nat)) :=
  pyTailerHead (power_of_2 readSize).toNat ⟨data, 0⟩ lines

/-- One iteration of the `while True` body of `Tailer.follow`, with the
swallow branch (`continue`) modelled by recursing on the fuel.  The loop
body runs at most twice per poll: the only `continue` requires
`trailing = true` and sets it to `false`, so fuel 2 never exhausts.
The emission path calls `self.suffix_line_terminator(line)`, a method that
does not exist on `Tailer` (the class defines `suffix`), so it raises
`AttributeError`. -/
def followLoop : Nat → ByteStream → Bool → Except PyErr (ByteStream × Bool × Option (List Nat))
  | 0, _, _ => .error .loopFuel
  | fuel + 1, st, trailing =>
    let wsize := st.data.length
    let whereP := if st.pos > wsize then 0 else st.pos
    let st0 := { st with pos := whereP }
    let r := readline st0
    let line := r.1
    let st1 := r.2
    if line = [] then
      .ok ({ st1 with pos := whereP }, true, none)
    else
      if trailing ∧ line ∈ pyTerminators then
        followLoop fuel st1 false
      else
        .error .attributeError

/-- One poll (`next(generator)`) of `Tailer.follow`: runs the loop body until
it yields.  Results are the updated stream, the updated `trailing` flag and
the yielded value (`some line` or `none`). -/
def followPoll (st : ByteStream) (trailing : Bool) :
    Except PyErr (ByteStream × Bool × Option (List Nat)) :=
  followLoop 2 st trailing

/-- Environment oracle for one poll of `FollowPathGenerator.next`.  The
file-system facts (`os.path.isfile`, inode comparison, `io.open` success) and
the values produced by polling the inner `Tailer.follow` generators are
supplied by the environment; the state machine under verification is the
wrapper logic itself. -/
structure PollEnv where
  /-- Value of `next(self.follow_generator)` on the existing generator. -/
  innerPoll1 : Option (List Nat)
  /-- `os.path.isfile(file_path)` inside the identity-change check. -/
  pathExists1 : Bool
  /-- The `os.stat`/`os.fstat` pair raised `OSError`. -/
  statRaises : Bool
  /-- `os.stat(file_path).st_ino != os.fstat(...).st_ino` (when stat ran). -/
  inodeChanged : Bool
  /-- `os.path.isfile(file_path)` guarding the re-open. -/
  pathExists2 : Bool
  /-- The `io.open`/`Tailer` construction in the `try` block raised. -/
  openRaises : Bool
  /-- Value of `next(self.follow_generator)` on a freshly opened generator. -/
  innerPoll2 : Option (List Nat)
deriving DecidableEq, Repr

/-- State of `FollowPathGenerator`: the open handle (abstract), the inner
follow generator — recorded as the `end` flag it was constructed with
(`Tailer(file, end=...)`: `true` seeks to end-of-stream, `false` leaves the
cursor at offset 0) — and `follow_from_end_on_open`. -/
structure PWState where
  following_file : Option Unit
  follow_generator : Option Bool
  follow_from_end_on_open : Bool
deriving DecidableEq, Repr

/-- Result of one poll step, with the state, the returned value, and — as a
directly observable record of the open event — the `end` flag of a session
created during this step (`none` when no session was created). -/
structure PWStepResult where
  state : PWState
  output : Option (List Nat)
  opened : Option Bool
deriving DecidableEq, Repr

/-- `FollowPathGenerator.__init__`: open immediately (at end-of-stream) when
the path exists, else remember to start from the end on the first open. -/
def pwInit (pathExistsAtInit : Bool) : PWState :=
  if pathExistsAtInit then
    { following_file := some (), follow_generator := some true,
      follow_from_end_on_open := false }
  else
    { following_file := none, follow_generator := none,
      follow_from_end_on_open := true }

/-- One call of `FollowPathGenerator.next` (the `while True` body returns on
its first iteration).  Decoding of the returned bytes is external and
omitted. -/
def pwStep (st : PWState) (env : PollEnv) : PWStepResult :=
  let line0 : Option (List Nat) :=
    match st.follow_generator with
    | some _ => env.innerPoll1
    | none => none
  match line0 with
  | some l => { state := st, output := some l, opened := none }
  | none =>
    -- identity-change check, only with a live generator
    let st1 :=
      if st.follow_generator.isSome then
        let changed :=
          if env.statRaises then true
          else if env.pathExists1 then env.inodeChanged else true
        if changed then
          { st with following_file := none, follow_generator := none }
        else st
      else st
    -- re-open, only with no generator and an existing path
    if st1.follow_generator.isNone ∧ env.pathExists2 then
      if env.openRaises then
        { state := { st1 with following_file := none, follow_generator := none },
          output := none, opened := none }
      else
        { state := { following_file := some (),
                     follow_generator := some st1.follow_from_end_on_open,
                     follow_from_end_on_open := false },
          output := env.innerPoll2,
          opened := some st1.follow_from_end_on_open }
    else
      { state := st1, output := none, opened := none }

/-- Run a sequence of polls from a state. -/
def pwRun (st : PWState) : List PollEnv → PWState
  | [] => st
  | e :: es => pwRun (pwStep st e).state es

/-- Number of inner sessions opened while polling through `envs` from `st`. -/
def pwOpens (st : PWState) : List PollEnv → Nat
  | [] => 0
  | e :: es =>
    (if (pwStep st e).opened.isSome then 1 else 0) + pwOpens (pwStep st e).state es

/-- Total number of sessions ever opened by a `follow_path` generator
constructed when the path did (`b = true`) or did not exist, followed by the
polls `envs`. -/
def pwTotalOpens (b : Bool) (envs : List PollEnv) : Nat :=
  (if b then 1 else 0) + pwOpens (pwInit b) envs

/-- The §3 `PathWatchState` invariant: a session is stored iff a handle is. -/
def pwInv (st : PWState) : Prop :=
  st.follow_generator.isSome ↔ st.following_file.isSome

/-- The byte stream of concrete scenario A from the specification and the
module doctest: CR, "Line 1" CRLF, "Line 2" LF, "Line 3" CR, "Line 4" CRLF,
LF, CRLF, CRLF. -/
def scenarioA : List Nat :=
  [13] ++ [76, 105, 110, 101, 32, 49] ++ [13, 10] ++ [76, 105, 110, 101, 32, 50] ++ [10] ++
    [76, 105, 110, 101, 32, 51] ++ [13] ++ [76, 105, 110, 101, 32, 52] ++ [13, 10] ++
    [10] ++ [13, 10] ++ [13, 10]

/-- C5: on scenario A with chunk size 1, `tail(_, 6)` returns exactly
"Line 2", "Line 3", "Line 4", "", "", "" in that order. -/
theorem c5_tail_scenarioA_chunk1 :
    pyTailTop scenarioA 6 1 =
      .ok [[76, 105, 110, 101, 32, 50], [76, 105, 110, 101, 32, 51],
        [76, 105, 110, 101, 32, 52], [], [], []] := by
  decide

/-- C1: a poll of a follow session with the complete line `b"Line 1\n"`
available does not emit the line: the emission path calls the non-existent
method `suffix_line_terminator` (the class defines `suffix`), raising
`AttributeError`.  This contradicts the own doctest of `follow`, which shows
`b"Line 1\n"` being emitted as `Line 1`. -/
theorem c1_follow_emit_raises_attribute_error :
    followPoll ⟨[76, 105, 110, 101, 32, 49, 10], 0⟩ true = .error .attributeError ∧
    followPoll ⟨[76, 105, 110, 101, 32, 49, 10], 0⟩ false = .error .attributeError := by
  constructor <;> decide

/-- C2: the round-trip is not chunk-size independent.  On the two-line stream
`b"ab\ncd"` with chunk size 2, `tail(_, 2)` raises (negative seek: `previous`
recomputes `read_size` from the original entry position instead of the bytes
remaining before the cursor), while chunk sizes 1 and 1024 return both lines,
and `head` at chunk size 2 also returns both lines. -/
theorem c2_tail_chunk2_negative_seek :
    pyTailTop [97, 98, 10, 99, 100] 2 2 = .error .negativeSeek ∧
    pyTailTop [97, 98, 10, 99, 100] 2 1 = .ok [[97, 98], [99, 100]] ∧
    pyTailTop [97, 98, 10, 99, 100] 2 1024 = .ok [[97, 98], [99, 100]] ∧
    pyHeadTop [97, 98, 10, 99, 100] 2 2 = .ok [[97, 98], [99, 100]] := by
  refine ⟨by decide, by decide, by decide, by decide⟩

/-- C3 counterexample: lone-terminator swallowing is not limited to the very
first read of a session.  First poll: the stream holds a single LF; it is
swallowed (yield `none`) and the empty read that follows sets `trailing`
again.  Second poll (the writer appended another LF): the lone terminator is
swallowed a second time and yielded as `none`, where the claim demands the
empty line `some []`. -/
theorem c3_swallow_repeats_counterexample :
    followPoll ⟨[10], 0⟩ true = .ok (⟨[10], 1⟩, true, none) ∧
    followPoll ⟨[10, 10], 1⟩ true = .ok (⟨[10, 10], 2⟩, true, none) := by
  constructor <;> decide

/-- C4 counterexample: a poll finding only the incomplete (unterminated) line
`b"abc"` does not restore the cursor and yield `none`: `readline` returns the
partial bytes, which are not a lone terminator, so the poll takes the
emission path and raises `AttributeError`. -/
theorem c4_incomplete_line_counterexample :
    followPoll ⟨[97, 98, 99], 0⟩ true = .error .attributeError := by
  decide

/-- C7 counterexample: `power_of_2(0)` returns `0`, not `1` as claimed: the
decremented value `-1` ors with its own arithmetic shifts to `-1`, and the
final increment gives `0`. -/
theorem c7_power_of_2_zero_counterexample :
    power_of_2 0 = 0 ∧ power_of_2 0 ≠ 1 := by
  constructor <;> decide

/-- C6: `power_of_2` does not return the next power of two for every
`requested ≥ 1`.  At `requested = 2^32 + 1` the smear loop runs only five
shifts (the bound `sys.getsizeof` is the object byte size 32, not the bit
width), covering 31 bit positions, so the low bits of `2^32` are never all
set and the result `2^33 - 1` is not a power of two (the correct answer is
`2^33`). -/
theorem c6_power_of_2_not_pow2_at_2_pow_32_add_1 :
    power_of_2 (2 ^ 32 + 1) = 2 ^ 33 - 1 ∧
      ¬ ∃ k : Nat, power_of_2 (2 ^ 32 + 1) = 2 ^ k := by
  have h : power_of_2 (2 ^ 32 + 1) = 2 ^ 33 - 1 := by decide
  refine ⟨h, ?_⟩
  rintro ⟨k, hk⟩
  rw [h] at hk
  cases k with
  | zero => norm_num at hk
  | succ s =>
    have h2 : ((2 : Int) ^ (s + 1)) % 2 = 0 := by
      rw [pow_succ]
      exact Int.mul_emod_left _ 2
    rw [← hk] at h2
    norm_num at h2

/-- `log2Fuel` is bounded by the bit length, independently of the fuel. -/
theorem log2Fuel_le (fuel : Nat) : ∀ n k : Nat, n < 2 ^ (k + 1) → log2Fuel fuel n ≤ k := by
  induction fuel with
  | zero => intro n k _; exact Nat.zero_le k
  | succ f ih =>
    intro n k h
    rw [log2Fuel]
    split
    case isTrue h2 =>
      match k with
      | 0 => omega
      | j + 1 =>
        have hdiv : n / 2 < 2 ^ (j + 1) := by
          have hh : n < 2 ^ (j + 1) * 2 := by
            calc n < 2 ^ (j + 1 + 1) := h
            _ = 2 ^ (j + 1) * 2 := by rw [pow_succ]
          omega
        have := ih (n / 2) j hdiv
        omega
    case isFalse h2 => exact Nat.zero_le k

/-- Monotonicity of the right shift. -/
theorem shr_mono {a b : Nat} (s : Nat) (h : a ≤ b) : a >>> s ≤ b >>> s := by
  simp only [Nat.shiftRight_eq_div_pow]
  exact Nat.div_le_div_right h

/-- One and-with-own-shift step stays below the accumulated shift of `m`. -/
theorem and_shr_step {m a t : Nat} (h : a ≤ m >>> t) (s : Nat) :
    a &&& (a >>> s) ≤ m >>> (t + s) := by
  calc a &&& (a >>> s) ≤ a >>> s := Nat.and_le_right
  _ ≤ (m >>> t) >>> s := shr_mono s h
  _ = m >>> (t + s) := (Nat.shiftRight_add m t s).symm

/-- For a negative argument `-[m+1]` and a size bound in `(16, 32]` — the
values `sys.getsizeof` takes on integers of magnitude up to `2^31` — the
smear loop of `power_of_2` followed by the final increment returns `0` for
every `m < 2^31`: the five shifts 1, 2, 4, 8, 16 cover 31 bit positions. -/
theorem orShiftLoop_negSucc_zero (m size f : Nat) (h16 : 16 < size)
    (h32 : ¬ 32 < size) (hm : m < 2 ^ 31) :
    orShiftLoop (f + 6) (Int.negSucc m) 1 size + 1 = 0 := by
  have h1 : 1 < size := by omega
  have h2 : 2 < size := by omega
  have h4 : 4 < size := by omega
  have h8 : 8 < size := by omega
  simp only [orShiftLoop, h1, h2, h4, h8, h16, if_true, if_neg h32, pyShr, pyOr]
  norm_num
  have h0 : m ≤ m >>> 0 := by rw [Nat.shiftRight_zero]
  have c1 := and_shr_step h0 1
  have c2 := and_shr_step c1 2
  have c3 := and_shr_step c2 4
  have c4 := and_shr_step c3 8
  have c5 := and_shr_step c4 16
  norm_num at c5
  have h31 : m >>> 31 = 0 := by
    rw [Nat.shiftRight_eq_div_pow]
    exact Nat.div_eq_of_lt hm
  have hz := c5
  rw [h31, Nat.le_zero] at hz
  rw [hz]
  decide

/-- C7 (amended): for every `requested` with `-2^31 < requested ≤ 0`,
`power_of_2` returns `0` (the claim said `1`): the decremented value is
negative, the or-shift loop smears sign bits until the value is `-1`, and
the final increment yields `0`. -/
theorem c7_power_of_2_nonpositive_eq_zero (requested : Int)
    (hlo : -(2 ^ 31) < requested) (hhi : requested ≤ 0) : power_of_2 requested = 0 := by
  obtain ⟨m, hm, hmlt⟩ : ∃ m : Nat, requested - 1 = Int.negSucc m ∧ m < 2 ^ 31 := by
    refine ⟨(-requested).toNat, ?_, by omega⟩
    rw [Int.negSucc_eq]
    omega
  simp only [power_of_2]
  rw [hm]
  have hsz : sys_getsizeof (Int.negSucc m) = 28 + 4 * (log2Fuel (m + 1) (m + 1) / 30) := by
    simp [sys_getsizeof, pyIntDigits, Int.natAbs_negSucc]
    ring
  have hlog : log2Fuel (m + 1) (m + 1) ≤ 31 := log2Fuel_le _ _ 31 (by norm_num; omega)
  have hdiv : log2Fuel (m + 1) (m + 1) / 30 ≤ 1 := by omega
  rw [hsz]
  set d := log2Fuel (m + 1) (m + 1) / 30 with hd
  interval_cases d
  · exact orShiftLoop_negSucc_zero m 28 22 (by norm_num) (by norm_num) hmlt
  · exact orShiftLoop_negSucc_zero m 32 26 (by norm_num) (by norm_num) hmlt

/-- Witness for the amended C7 at `requested = 0`. -/
theorem c7_power_of_2_nonpositive_eq_zero_witness : power_of_2 0 = 0 :=
  c7_power_of_2_nonpositive_eq_zero 0 (by norm_num) (by norm_num)

/-- C4 (amended): a poll of a follow session that finds no new data at the
cursor consumes nothing — the cursor is restored to the poll entry position,
the trailing flag is set, and `none` is yielded. -/
theorem c4_no_data_restores_cursor (data : List Nat) (pos : Nat) (tr : Bool)
    (h : pos = data.length) :
    followPoll ⟨data, pos⟩ tr = .ok (⟨data, pos⟩, true, none) := by
  subst h
  simp [followPoll, followLoop, readline, List.drop_length, readlineBytes]

/-- Witness for the amended C4: a one-byte stream fully consumed. -/
theorem c4_no_data_restores_cursor_witness :
    followPoll ⟨[97], 1⟩ false = .ok (⟨[97], 1⟩, true, none) :=
  c4_no_data_restores_cursor [97] 1 false (by decide)

/-- C3 (amended): a read consisting of exactly a lone terminator is swallowed
precisely when the `trailing` flag is set — which holds at session start and
again after every poll that found no data, so swallowing is not limited to
the very first read and can recur.  With the flag set, the poll consumes the
terminator without emitting it and continues as a fresh non-swallowing
iteration; with the flag clear, the read is not emitted as an empty line
either — the emission path raises `AttributeError` (missing
`suffix_line_terminator`). -/
theorem c3_swallow_iff_trailing (st : ByteStream)
    (hpos : st.pos ≤ st.data.length)
    (hline : readlineBytes (st.data.drop st.pos) ∈ pyTerminators) :
    followPoll st true =
      followLoop 1 { st with pos := st.pos + (readlineBytes (st.data.drop st.pos)).length }
        false ∧
    followPoll st false = .error .attributeError := by
  have hne : readlineBytes (st.data.drop st.pos) ≠ [] := by
    intro hnil
    rw [hnil] at hline
    simp [pyTerminators] at hline
  have hgt : ¬ st.pos > st.data.length := by omega
  constructor
  · simp only [followPoll, followLoop, readline, if_neg hgt]
    simp [hne, hline]
  · simp only [followPoll, followLoop, readline, if_neg hgt]
    simp [hne]

/-- Witness for the amended C3: a lone LF at the cursor. -/
theorem c3_swallow_iff_trailing_witness :
    followPoll ⟨[10], 0⟩ true = followLoop 1 ⟨[10], 1⟩ false ∧
    followPoll ⟨[10], 0⟩ false = .error .attributeError :=
  c3_swallow_iff_trailing ⟨[10], 0⟩ (by decide) (by decide)

/-- `prevLoop` can only return `-1` when the entry position `ws` is `0`:
the `-1` result arises solely from the break path guarded by `where == 0`. -/
theorem prevLoop_ok_neg_one (size ws : Nat) :
    ∀ (fuel : Nat) (st : ByteStream) (off : Nat) (st2 : ByteStream),
      prevLoop size ws st off fuel = .ok (-1, st2) → ws = 0 := by
  intro fuel
  induction fuel with
  | zero =>
    intro st off st2 h
    simp [prevLoop] at h
  | succ f ih =>
    intro st off st2 h
    simp only [prevLoop] at h
    by_cases h1 : off = ws
    · rw [if_pos h1] at h
      by_cases h2 : ws = 0
      · exact h2
      · rw [if_neg h2] at h
        simp [seekTo] at h
    · rw [if_neg h1] at h
      split at h
      · exact absurd h (by simp)
      · split at h
        · exact absurd h (by simp)
        · split at h
          · exact absurd h (by simp)
          · split at h
            · split at h
              · exact absurd h (by simp)
              · rw [Except.ok.injEq, Prod.mk.injEq, Int.ofNat_eq_natCast] at h
                exact absurd h.1 (by omega)
            · exact ih _ _ _ h

/-- When `nextLoop` returns the not-found sentinel `-1`, the cursor is at
end-of-stream, provided the reads so far were contiguous from `ws`
(cursor = `ws + off`) and inside the stream. -/
theorem nextLoop_ok_neg_one (size : Nat) (hs : 0 < size) (ws : Nat) :
    ∀ (fuel : Nat) (st : ByteStream) (off : Nat) (stf : ByteStream),
      st.pos = ws + off → ws + off ≤ st.data.length →
      nextLoop size ws st off fuel = .ok (-1, stf) →
      stf.data = st.data ∧ stf.pos = st.data.length := by
  intro fuel
  induction fuel with
  | zero => intro st off stf _ _ h; simp [nextLoop] at h
  | succ f ih =>
    intro st off stf hpos hle h
    obtain ⟨sd, sp⟩ := st
    simp only at hpos hle ⊢
    subst hpos
    have hlen0 : ((sd.drop (ws + off)).take size).length ≤ sd.length - (ws + off) := by
      rw [List.length_take, List.length_drop]
      omega
    simp only [nextLoop, sread] at h
    split at h
    case isTrue hlen =>
      simp only [Except.ok.injEq, Prod.mk.injEq, true_and] at h
      subst h
      rw [List.length_take, List.length_drop] at hlen
      exact ⟨rfl, by simp only []; omega⟩
    case isFalse hlen =>
      set c := (sd.drop (ws + off)).take size with hc
      generalize hfold :
        (if c.getLast? = some 13 then
            match List.take 1 (List.drop (ws + off + c.length) sd) with
            | 10 :: _ =>
              (c ++ [10],
                ({ data := sd,
                   pos := ws + off + c.length +
                     (List.take 1 (List.drop (ws + off + c.length) sd)).length } : ByteStream))
            | _ => (c, ({ data := sd, pos := ws + off + c.length } : ByteStream))
          else (c, ({ data := sd, pos := ws + off + c.length } : ByteStream))) = fp at h
      obtain ⟨hfd, hfl⟩ : fp.2.data = sd ∧ ws + off + fp.1.length ≤ sd.length := by
        split at hfold
        case isTrue hcr =>
          split at hfold
          case h_1 tail heq =>
            have hnn : List.drop (ws + off + c.length) sd ≠ [] := by
              intro hnil
              rw [hnil] at heq
              simp at heq
            have hl2 : ws + off + c.length < sd.length := by
              by_contra hcon
              push_neg at hcon
              exact hnn (List.drop_eq_nil_of_le hcon)
            subst hfold
            refine ⟨rfl, ?_⟩
            simp only [List.length_append, List.length_cons, List.length_nil]
            omega
          case h_2 x heq =>
            subst hfold
            exact ⟨rfl, by simp only []; omega⟩
        case isFalse hcr =>
          subst hfold
          exact ⟨rfl, by simp only []; omega⟩
      split at h
      case h_1 dw t heq2 =>
        rw [Except.ok.injEq, Prod.mk.injEq, Int.ofNat_eq_natCast] at h
        exact absurd h.1 (by omega)
      case h_2 heq2 =>
        obtain ⟨ha, hb⟩ :=
          ih { data := fp.2.data, pos := ws + (off + fp.1.length) } (off + fp.1.length) stf rfl
            (by simp only [hfd]; omega) h
        simp only [hfd] at ha hb
        exact ⟨ha, hb⟩

/-- C10: when `next()` returns the sentinel `-1` it has consumed all bytes
from the cursor to end-of-stream (the cursor ends at the stream length,
which `head()` relies on); and `previous()` returns `-1` exactly when it is
entered with the cursor at offset 0, leaving the cursor unchanged. -/
theorem c10_not_found_cursor_semantics (size : Nat) (st stf st2 : ByteStream)
    (hsize : 0 < size) (hpos : st.pos ≤ st.data.length) :
    (pyNext size st = .ok (-1, stf) → stf.pos = st.data.length) ∧
    (st.pos = 0 → pyPrevious size st = .ok (-1, st)) ∧
    (pyPrevious size st = .ok (-1, st2) → st.pos = 0 ∧ st2 = st) := by
  refine ⟨?_, ?_, ?_⟩
  · intro h
    simp only [pyNext] at h
    exact (nextLoop_ok_neg_one size hsize st.pos _ st 0 stf (by omega) (by omega) h).2
  · intro h0
    simp only [pyPrevious, h0]
    simp [prevLoop]
  · intro h
    simp only [pyPrevious] at h
    have hws : st.pos = 0 := prevLoop_ok_neg_one size st.pos _ st 0 st2 h
    rw [hws] at h
    simp [prevLoop] at h
    exact ⟨hws, h.symm⟩

/-- Witness for C10 at `size = 1` on the empty stream at offset 0. -/
theorem c10_not_found_cursor_semantics_witness :
    (⟨[], 0⟩ : ByteStream).pos = ([] : List Nat).length ∧
    pyPrevious 1 ⟨[], 0⟩ = .ok (-1, (⟨[], 0⟩ : ByteStream)) ∧
    ((⟨[], 0⟩ : ByteStream).pos = 0 ∧ (⟨[], 0⟩ : ByteStream) = ⟨[], 0⟩) := by
  have h := c10_not_found_cursor_semantics 1 ⟨[], 0⟩ ⟨[], 0⟩ ⟨[], 0⟩ (by decide) (by decide)
  exact ⟨h.1 (by decide), h.2.1 (by decide), h.2.2 (by decide)⟩

/-- A step that created a session created it with the `end` flag stored in
the state, returned the fresh poll result, and cleared the flag. -/
theorem pwStep_opened_spec (st : PWState) (env : PollEnv) (e : Bool)
    (h : (pwStep st env).opened = some e) :
    e = st.follow_from_end_on_open ∧
    (pwStep st env).output = env.innerPoll2 ∧
    (pwStep st env).state.follow_from_end_on_open = false := by
  rcases st with ⟨ff, fg, flag⟩
  cases fg <;> rcases hp : env.innerPoll1 with _ | l <;>
    simp [pwStep, hp] at h ⊢ <;> split_ifs at h ⊢ <;> simp_all

/-- A step that created no session left the `end` flag untouched. -/
theorem pwStep_not_opened_flag (st : PWState) (env : PollEnv)
    (h : (pwStep st env).opened = none) :
    (pwStep st env).state.follow_from_end_on_open = st.follow_from_end_on_open := by
  rcases st with ⟨ff, fg, flag⟩
  cases fg <;> rcases hp : env.innerPoll1 with _ | l <;>
    simp [pwStep, hp] at h ⊢ <;> split_ifs at h ⊢ <;> simp_all

/-- The `follow_from_end_on_open` flag is set iff no session has ever been
opened, threaded through any sequence of polls. -/
theorem pw_flag_iff_no_opens (envs : List PollEnv) :
    ∀ (st : PWState) (n : Nat), (st.follow_from_end_on_open = true ↔ n = 0) →
      ((pwRun st envs).follow_from_end_on_open = true ↔ n + pwOpens st envs = 0) := by
  induction envs with
  | nil => intro st n h; simpa [pwRun, pwOpens] using h
  | cons e es ih =>
    intro st n h
    rw [pwRun, pwOpens]
    rcases hop : (pwStep st e).opened with _ | b
    · have hflag := pwStep_not_opened_flag st e hop
      have := ih (pwStep st e).state n (by rw [hflag]; exact h)
      simpa [hop] using this
    · have hflag := (pwStep_opened_spec st e b hop).2.2
      have hmain := ih (pwStep st e).state (n + 1) (by simp [hflag])
      simp only [Option.isSome_some, if_true]
      constructor
      · intro hh
        have := hmain.mp hh
        omega
      · intro hh
        exact absurd hh (by omega)

/-- C8: in a `follow_path` session (constructed with the path existing iff
`b`, then polled through `envs`), a poll that successfully opens an inner
follow session creates it with `end = e` where `e = true` — positioned at
end-of-stream — exactly when no session was ever opened before (the very
first open of the lifetime), and `e = false` — cursor at offset 0 — on every
re-open; the step clears the start-from-end flag and returns the result of
polling the fresh session once, so an already-available line is returned
rather than a spurious no-line-yet `none`. -/
theorem c8_open_end_flag_first_open_only (b : Bool) (envs : List PollEnv)
    (env : PollEnv) (e : Bool)
    (h : (pwStep (pwRun (pwInit b) envs) env).opened = some e) :
    (e = true ↔ pwTotalOpens b envs = 0) ∧
    (pwStep (pwRun (pwInit b) envs) env).output = env.innerPoll2 ∧
    (pwStep (pwRun (pwInit b) envs) env).state.follow_from_end_on_open = false := by
  obtain ⟨he, hout, hflag⟩ := pwStep_opened_spec _ _ _ h
  refine ⟨?_, hout, hflag⟩
  have hinit : (pwInit b).follow_from_end_on_open = true ↔ (if b then 1 else 0) = 0 := by
    cases b <;> simp [pwInit]
  have hiff := pw_flag_iff_no_opens envs (pwInit b) (if b then 1 else 0) hinit
  rw [he, pwTotalOpens]
  exact hiff

/-- Witness for C8: a session opened on an existing path, rotated away on the
first poll, and re-opened on the second poll: the re-open carries
`end = false` (offset 0), and the poll returns the fresh line. -/
theorem c8_open_end_flag_first_open_only_witness :
    ((false = true) ↔
      pwTotalOpens true [⟨none, false, false, false, false, false, none⟩] = 0) ∧
    (pwStep (pwRun (pwInit true) [⟨none, false, false, false, false, false, none⟩])
        ⟨none, false, false, false, true, false, some [108]⟩).output = some [108] ∧
    (pwStep (pwRun (pwInit true) [⟨none, false, false, false, false, false, none⟩])
        ⟨none, false, false, false, true, false, some [108]⟩).state.follow_from_end_on_open
      = false :=
  c8_open_end_flag_first_open_only true [⟨none, false, false, false, false, false, none⟩]
    ⟨none, false, false, false, true, false, some [108]⟩ false (by decide)

/-- C9: the `PathWatchState` invariant — a follow session is stored iff an
open handle is stored — holds initially and is preserved by every poll, for
every behaviour of the file system and inner sessions, including the
identity-change path (both discarded together) and the open-failure path
(both reset together). -/
theorem c9_handle_session_invariant :
    (∀ b, pwInv (pwInit b)) ∧
    ∀ (st : PWState) (env : PollEnv), pwInv st → pwInv (pwStep st env).state := by
  constructor
  · intro b
    cases b <;> simp [pwInit, pwInv]
  · intro st env hinv
    rcases st with ⟨ff, fg, flag⟩
    cases fg <;> rcases hp : env.innerPoll1 with _ | l <;>
      simp [pwStep, pwInv, hp] at hinv ⊢ <;> (try split_ifs) <;> simp_all

/-- Witness for C9: the invariant after one poll that hits the rotation path
(inner poll `none`, path gone) from an open session. -/
theorem c9_handle_session_invariant_witness :
    pwInv (pwStep (pwInit true) ⟨none, false, false, false, false, false, none⟩).state :=
  c9_handle_session_invariant.2 (pwInit true)
    ⟨none, false, false, false, false, false, none⟩ (by simp [pwInv, pwInit])
